import Mathlib

/-!
Verification of the metric-computation, pitch-mix and situational-filtering
logic of `PitcherScoutingApp.py` (a Streamlit dashboard over pandas tables).

Shallow embedding conventions:
* a pandas DataFrame of pitch events becomes a `Frame`: a list of `Row`s
  plus the list of column names (the column list is only consulted by the
  dynamic handedness-column resolution, the one place the source probes
  the schema);
* nullable cells (NaN) become `Option`s; `fillna`/`notna`/`isna` become
  `Option.getD` / `Option.isSome` / `Option.isNone`;
* float arithmetic becomes exact `ℚ` arithmetic; Python `round(x, 1)`
  becomes `py_round1` (both the source and the spec apply the same
  rounding, so its tie-breaking convention is immaterial to the claims);
* pandas `groupby` (which sorts group keys ascending, `sort=True` being
  the default) and `sort_values` are modelled with a stable insertion
  sort `sort_by`; `sort_values`' default `kind='quicksort'` is not
  documented as stable, and the deterministic stable order is the
  faithful model (numpy's introsort falls back to a stable insertion
  sort on the small arrays a pitch-mix table produces); Python string
  order (code-point lexicographic) is modelled by `chars_lt`;
* the `try/except` around count parsing becomes an `Option`-returning
  parser.
-/

/-- One pitch-event row (one row of the Statcast table).  Only the columns
the program reads are modelled.  `pitch_label` stands for the value of the
label column chosen at line 158 (`pitch_name` if present, else
`pitch_type`). -/
structure Row where
  description : Option String
  events : Option String
  pitch_label : Option String
  stand : Option String
  bat_side : Option String
  batting_hand : Option String
  bat_hand : Option String
  batter_hand : Option String
  balls : Int
  strikes : Int
  outs_when_up : Int
  on_1b : Option Nat
  on_2b : Option Nat
  on_3b : Option Nat
  launch_speed : Option ℚ
  launch_angle : Option ℚ
deriving DecidableEq

/-- A pitch-event table: the rows plus the schema (column names). -/
structure Frame where
  cols : List String
  rows : List Row
deriving DecidableEq

/-- Python `round(x, 1)` modelled on `ℚ`. -/
def py_round1 (q : ℚ) : ℚ := (round (q * 10) : ℚ) / 10

/-- Mean of a list of rationals (pandas `.mean()` over non-null cells). -/
def q_mean (l : List ℚ) : ℚ := l.sum / (l.length : ℚ)

/-- A row with everything null except the three fields the metric claims
read (used by concrete examples). -/
def mkRow (desc ev lab : Option String) : Row :=
  { description := desc, events := ev, pitch_label := lab, stand := none,
    bat_side := none, batting_hand := none, bat_hand := none, batter_hand := none,
    balls := 0, strikes := 0, outs_when_up := 0, on_1b := none, on_2b := none,
    on_3b := none, launch_speed := none, launch_angle := none }

/-! ## Metric engine: `compute_pa_level_rates` (source lines 33-40) -/

/-- Line 34: `statcast_df[statcast_df["events"].notna()]`. -/
def pa_rows (rows : List Row) : List Row :=
  rows.filter (fun r => r.events.isSome)

/-- Source lines 33-40.  `.eq(v).mean()` over the filtered frame is the
count of rows equal to `v` divided by the row count. -/
def compute_pa_level_rates (rows : List Row) : Option ℚ × Option ℚ × Nat :=
  let pa_df := pa_rows rows
  let pa_count := pa_df.length
  if pa_count = 0 then (none, none, 0)
  else
    let k_pct := py_round1 (((pa_df.countP (fun r => r.events == some "strikeout")) : ℚ)
      / (pa_count : ℚ) * 100)
    let bb_pct := py_round1 (((pa_df.countP (fun r => r.events == some "walk")) : ℚ)
      / (pa_count : ℚ) * 100)
    (some k_pct, some bb_pct, pa_count)

/-! ## Metric engine: `compute_pitch_metrics` (source lines 42-66) -/

/-- Source lines 44-45. -/
def strike_descriptions : List String :=
  ["called_strike", "swinging_strike", "swinging_strike_blocked",
   "foul", "foul_tip", "foul_bunt"]

/-- Source line 46. -/
def swing_descriptions : List String :=
  ["swinging_strike", "swinging_strike_blocked", "foul", "foul_tip", "hit_into_play"]

/-- Source line 51 (the whiff set literal). -/
def whiff_descriptions : List String :=
  ["swinging_strike", "swinging_strike_blocked"]

/-- The record returned by `compute_pitch_metrics` (source lines 60-66). -/
structure PitchMetrics where
  totalPitches : Nat
  strikePct : Option ℚ
  whiffPct : Option ℚ
  avgExitVelo : Option ℚ
  avgLaunchAngle : Option ℚ
deriving DecidableEq

/-- Source lines 42-66.  `desc` is `statcast_df["description"].fillna("")`;
`isin(S).sum()` is `countP (· ∈ S)`; the guards `if total_pitches` /
`if swings` are Python truthiness on an integer.  A pandas mean over an
all-null column is NaN, modelled as `none` (not exercised by any claim). -/
def compute_pitch_metrics (rows : List Row) : PitchMetrics :=
  let desc := rows.map (fun r => r.description.getD "")
  let total_pitches := rows.length
  let strikes := desc.countP (fun d => strike_descriptions.contains d)
  let swings := desc.countP (fun d => swing_descriptions.contains d)
  let whiffs := desc.countP (fun d => whiff_descriptions.contains d)
  let strike_pct := if total_pitches ≠ 0 then
      some (py_round1 ((strikes : ℚ) / (total_pitches : ℚ) * 100)) else none
  let whiff_pct := if swings ≠ 0 then
      some (py_round1 ((whiffs : ℚ) / (swings : ℚ) * 100)) else none
  let batted := rows.filter (fun r => r.launch_speed.isSome)
  let avg_ev := if batted.isEmpty then none
    else some (py_round1 (q_mean (batted.filterMap Row.launch_speed)))
  let avg_la := if batted.isEmpty then none
    else
      let angs := batted.filterMap Row.launch_angle
      if angs.isEmpty then none else some (py_round1 (q_mean angs))
  { totalPitches := total_pitches, strikePct := strike_pct, whiffPct := whiff_pct,
    avgExitVelo := avg_ev, avgLaunchAngle := avg_la }

/-- Spec-side strike count: rows whose description (null read as `""`) is
in the strike-description set. -/
def spec_strike_count (rows : List Row) : Nat :=
  rows.countP (fun r => strike_descriptions.contains (r.description.getD ""))

/-- Spec-side swing count. -/
def spec_swing_count (rows : List Row) : Nat :=
  rows.countP (fun r => swing_descriptions.contains (r.description.getD ""))

/-- Spec-side whiff count. -/
def spec_whiff_count (rows : List Row) : Nat :=
  rows.countP (fun r => whiff_descriptions.contains (r.description.getD ""))

/-- Spec-side strike percentage: null when the table is empty, else
`round(strikes / totalPitches × 100, 1)`. -/
def spec_strike_pct (rows : List Row) : Option ℚ :=
  if rows.length = 0 then none
  else some (py_round1 ((spec_strike_count rows : ℚ) / (rows.length : ℚ) * 100))

/-- Spec-side whiff percentage: null when the swing count is zero, else
`round(whiffs / swings × 100, 1)`. -/
def spec_whiff_pct (rows : List Row) : Option ℚ :=
  if spec_swing_count rows = 0 then none
  else some (py_round1 ((spec_whiff_count rows : ℚ) / (spec_swing_count rows : ℚ) * 100))

/-- Example table for the C2 witness: two terminal events (one strikeout,
one walk), one non-terminal pitch. -/
def exPA : List Row :=
  [mkRow (some "called_strike") none (some "Slider"),
   mkRow (some "hit_into_play") (some "strikeout") (some "Slider"),
   mkRow (some "foul") (some "walk") (some "Fastball")]

/-! ## Season-aggregate lookup: `get_fg_row` (source lines 20-31) -/

/-- One row of the FanGraphs season-aggregate table; only the two fields
`get_fg_row` reads are modelled.  `Name` is nullable (`na=False` in the
source handles a null name by treating it as a non-match). -/
structure FGRow where
  IDfg : Int
  Name : Option String
deriving DecidableEq

/-- Character-list substring test: does `pat` occur contiguously in the
second list? -/
def occurs (pat : List Char) : List Char → Bool
  | [] => pat.isEmpty
  | c :: t => pat.isPrefixOf (c :: t) || occurs pat t

/-- ASCII lower-casing of one character (player names are ASCII). -/
def lower_char (c : Char) : Char :=
  if 'A' ≤ c ∧ c ≤ 'Z' then Char.ofNat (c.toNat + 32) else c

/-- The characters of a string, lower-cased. -/
def lower_chars (s : String) : List Char := s.data.map lower_char

/-- `hay.str.contains(pat, case=False)` for a metacharacter-free pattern:
case-insensitive substring containment (the source passes a player name
as the pattern). -/
def str_contains_ci (hay pat : String) : Bool :=
  occurs (lower_chars pat) (lower_chars hay)

/-- The name predicate of source line 28, with `na=False`: a null name
never matches. -/
def name_match (nm : String) (r : FGRow) : Bool :=
  match r.Name with
  | some s => str_contains_ci s nm
  | none => false

/-- Source lines 20-31.  The table argument is `Option`al to model the
`fg_df is None` guard; `if player_name:` is Python truthiness on an
optional string (both `None` and `""` are falsy). -/
def get_fg_row (fg_df : Option (List FGRow)) (fg_id : Option Int)
    (player_name : Option String) : Option FGRow :=
  match fg_df with
  | none => none
  | some fg =>
    if fg.isEmpty then none
    else
      let by_id := match fg_id with
        | some i => fg.find? (fun r => r.IDfg == i)
        | none => none
      match by_id with
      | some r => some r
      | none =>
        match player_name with
        | none => none
        | some nm =>
          if nm ≠ "" then fg.find? (name_match nm) else none

/-- Example season-aggregate table used by the lookup witnesses. -/
def exFG : List FGRow := [⟨7, some "Gerrit Cole"⟩, ⟨9, some "Zack Wheeler"⟩]

/-! ## Pitch-mix aggregation (source lines 158-169, repeated at 253-264) -/

/-- `data.dropna(subset=[label_col])` followed by projection to the label
column: the list of non-null pitch labels in row order. -/
def pitch_labels (rows : List Row) : List String :=
  rows.filterMap Row.pitch_label

/-- Python string comparison: code-point lexicographic order on the
character lists. -/
def chars_lt : List Char → List Char → Bool
  | _, [] => false
  | [], _ :: _ => true
  | a :: as, b :: bs =>
    if a.toNat < b.toNat then true
    else if b.toNat < a.toNat then false
    else chars_lt as bs

/-- `a <= b` in Python string order. -/
def str_le (a b : String) : Bool := !(chars_lt b.data a.data)

/-- Insert into a sorted list: `a` goes in front of the first element `b`
with `cmp a b`; in particular an incoming element never passes one it
ties with (stability). -/
def insert_by (cmp : α → α → Bool) (a : α) : List α → List α
  | [] => [a]
  | b :: bs => if cmp a b then a :: b :: bs else b :: insert_by cmp a bs

/-- Stable insertion sort: the deterministic model of the pandas sorts. -/
def sort_by (cmp : α → α → Bool) : List α → List α
  | [] => []
  | a :: t => insert_by cmp a (sort_by cmp t)

/-- The count-descending comparator of `sort_values("count",
ascending=False)`: an element goes before another one iff its count is at
least as large. -/
def count_ge (a b : String × Nat) : Bool := decide (b.2 ≤ a.2)

/-- Source lines 159-165:
`data.dropna(subset=[label_col]).groupby(label_col).size()
 .reset_index(name="count").sort_values("count", ascending=False)`.
`groupby` emits one row per distinct key, keys sorted ascending in Python
string order; the final sort orders by count descending. -/
def computeMix (rows : List Row) : List (String × Nat) :=
  let labs := pitch_labels rows
  let keys := sort_by str_le labs.dedup
  let grouped := keys.map (fun k => (k, labs.count k))
  sort_by count_ge grouped

/-- Source line 169: `mix["usage %"] = mix["count"] / mix["count"].sum() * 100`,
appended to the mix table. -/
def computeMixUsage (rows : List Row) : List (String × Nat × ℚ) :=
  let mix := computeMix rows
  let total : Nat := (mix.map (fun p => p.2)).sum
  mix.map (fun p => (p.1, p.2, (p.2 : ℚ) / (total : ℚ) * 100))

/-- The distinct elements of a list in first-seen order. -/
def first_seen (l : List String) : List String := l.reverse.dedup.reverse

/-- Spec-side grouping: one `(label, count)` pair per distinct non-null
label, paired with its number of occurrences (order immaterial where it is
compared up to permutation; first-seen where order matters). -/
def spec_groups (rows : List Row) : List (String × Nat) :=
  (pitch_labels rows).dedup.map (fun k => (k, (pitch_labels rows).count k))

/-- The mix as the claim describes it: group in first-seen label order,
then sort by count descending with a stable sort, so that ties keep
first-seen order. -/
def spec_mix_claimed (rows : List Row) : List (String × Nat) :=
  sort_by count_ge
    ((first_seen (pitch_labels rows)).map (fun k => (k, (pitch_labels rows).count k)))

/-- Strict order actually realised by the mix table: count descending,
ties by ascending label in Python string order. -/
def mix_order (a b : String × Nat) : Prop :=
  b.2 < a.2 ∨ (a.2 = b.2 ∧ chars_lt a.1.data b.1.data = true)

/-- Two one-pitch rows whose labels tie on count but whose first-seen
order (`Slider` before `Changeup`) is the reverse of ascending label
order. -/
def exMixRows : List Row :=
  [mkRow none none (some "Slider"), mkRow none none (some "Changeup")]

/-! ## Situational filter engine: `apply_filters` (source lines 193-238) -/

/-- The outs selector offers `"All"` or a literal number (source line 243). -/
inductive OutsOption where
  | all : OutsOption
  | val : Int → OutsOption
deriving DecidableEq

/-- Source line 197: the priority list of handedness column aliases. -/
def handed_aliases : List String :=
  ["stand", "bat_side", "batting_hand", "bat_hand", "batter_hand"]

/-- The value a row holds in a given handedness column alias. -/
def hand_value (r : Row) (c : String) : Option String :=
  if c == "stand" then r.stand
  else if c == "bat_side" then r.bat_side
  else if c == "batting_hand" then r.batting_hand
  else if c == "bat_hand" then r.bat_hand
  else if c == "batter_hand" then r.batter_hand
  else none

/-- Source lines 195-203: resolve the handedness column from the alias
priority list (`for c in [...]: if c in situ_df.columns: ...; break` is
`find?`); comparing a null cell with `want` is false. -/
def filter_handedness (df : Frame) (handedness : String) : Frame :=
  if handedness != "All" then
    match handed_aliases.find? (fun c => df.cols.contains c) with
    | some handed_col =>
      let want := if handedness == "Left" then "L" else "R"
      { df with rows := df.rows.filter (fun r => hand_value r handed_col == some want) }
    | none => df
  else df

/-- Whitespace characters stripped by Python `int()`. -/
def is_space (c : Char) : Bool :=
  c == ' ' || c == '\t' || c == '\n' || c == '\r' || c == '\x0b' || c == '\x0c'

/-- Strip leading and trailing whitespace from a character list. -/
def trim_chars (l : List Char) : List Char :=
  ((l.dropWhile is_space).reverse.dropWhile is_space).reverse

/-- Digits-only numeral value (no sign): `none` unless the list is a
nonempty run of decimal digits. -/
def digits_val (l : List Char) : Option Nat :=
  if l ≠ [] ∧ l.all (fun c => c.isDigit) then
    some (l.foldl (fun acc c => acc * 10 + (c.toNat - 48)) 0)
  else none

/-- Python `int(s)` on a string: strip whitespace, optional sign, then a
nonempty digit run (digit-group underscores are not modelled; no string
the program feeds this contains one). -/
def py_int_parse (l : List Char) : Option Int :=
  match trim_chars l with
  | [] => none
  | c :: rest =>
    if c == '-' then (digits_val rest).map (fun n => -(n : Int))
    else if c == '+' then (digits_val rest).map (fun n => (n : Int))
    else (digits_val (c :: rest)).map (fun n => (n : Int))

/-- Python `str.split` with a one-character separator: `"".split` gives
`[""]`, and a separator at either end yields an empty piece. -/
def split_on_char (sep : Char) : List Char → List (List Char)
  | [] => [[]]
  | c :: t =>
    if c == sep then [] :: split_on_char sep t
    else
      match split_on_char sep t with
      | [] => [[c]]
      | h :: t2 => (c :: h) :: t2

/-- Source lines 205-207: `balls, strikes = count_option.split("-")` then
`int(...)` on both; any failure (wrong number of pieces, or a piece that
is not an integer) lands in the bare `except` (line 208), modelled as
`none`. -/
def parse_count (c : String) : Option (Int × Int) :=
  match split_on_char '-' c.data with
  | [b, s] =>
    match py_int_parse b, py_int_parse s with
    | some bi, some si => some (bi, si)
    | _, _ => none
  | _ => none

/-- Source lines 204-208: the count filter, with the `try/except: pass`
realised as skipping on a failed parse. -/
def filter_count (df : Frame) (count_option : String) : Frame :=
  if count_option != "All" then
    match parse_count count_option with
    | some bs =>
      { df with rows := df.rows.filter (fun r => r.balls == bs.1 && r.strikes == bs.2) }
    | none => df
  else df

/-- Source lines 209-210. -/
def filter_outs (df : Frame) (outs_option : OutsOption) : Frame :=
  match outs_option with
  | OutsOption.all => df
  | OutsOption.val n => { df with rows := df.rows.filter (fun r => r.outs_when_up == n) }

/-- Source lines 212-237: the base-state `if/elif` chain, in source order;
an unrecognized option (only `"All"` in practice) falls through unchanged. -/
def filter_base_state (df : Frame) (base_state_option : String) : Frame :=
  if base_state_option == "Empty" then
    { df with rows := df.rows.filter (fun r => r.on_1b.isNone && r.on_2b.isNone && r.on_3b.isNone) }
  else if base_state_option == "Runners On" then
    { df with rows := df.rows.filter (fun r => r.on_1b.isSome || r.on_2b.isSome || r.on_3b.isSome) }
  else if base_state_option == "RISP" then
    { df with rows := df.rows.filter (fun r => r.on_2b.isSome || r.on_3b.isSome) }
  else if base_state_option == "First occupied" then
    { df with rows := df.rows.filter (fun r => r.on_1b.isSome) }
  else if base_state_option == "First Only" then
    { df with rows := df.rows.filter (fun r => r.on_1b.isSome && r.on_2b.isNone && r.on_3b.isNone) }
  else if base_state_option == "First & Second" then
    { df with rows := df.rows.filter (fun r => r.on_1b.isSome && r.on_2b.isSome && r.on_3b.isNone) }
  else if base_state_option == "First & Third" then
    { df with rows := df.rows.filter (fun r => r.on_1b.isSome && r.on_2b.isNone && r.on_3b.isSome) }
  else if base_state_option == "Second Only" then
    { df with rows := df.rows.filter (fun r => r.on_1b.isNone && r.on_2b.isSome && r.on_3b.isNone) }
  else if base_state_option == "Second occupied" then
    { df with rows := df.rows.filter (fun r => r.on_2b.isSome) }
  else if base_state_option == "Second & Third" then
    { df with rows := df.rows.filter (fun r => r.on_1b.isNone && r.on_2b.isSome && r.on_3b.isSome) }
  else if base_state_option == "Third Only" then
    { df with rows := df.rows.filter (fun r => r.on_1b.isNone && r.on_2b.isNone && r.on_3b.isSome) }
  else if base_state_option == "Third occupied" then
    { df with rows := df.rows.filter (fun r => r.on_3b.isSome) }
  else if base_state_option == "Bases Loaded" then
    { df with rows := df.rows.filter (fun r => r.on_1b.isSome && r.on_2b.isSome && r.on_3b.isSome) }
  else df

/-- Source lines 193-238: the four dimensions applied in source order to a
copy of the input (`df.copy()` on line 194 — the input is never mutated,
which the pure embedding makes structural). -/
def apply_filters (df : Frame) (handedness : String) (count_option : String)
    (outs_option : OutsOption) (base_state_option : String) : Frame :=
  filter_base_state
    (filter_outs
      (filter_count
        (filter_handedness df handedness)
        count_option)
      outs_option)
    base_state_option

/-- A one-row example frame shared by the filter witnesses. -/
def exDF : Frame := ⟨["pitch_name"], [mkRow none none (some "Slider")]⟩

/-- A frame whose schema carries the second alias (`bat_side`) but not the
first (`stand`), with one left-handed and one right-handed row. -/
def exHandDF : Frame :=
  ⟨["bat_side"],
   [{ mkRow none none (some "Slider") with bat_side := some "L" },
    { mkRow none none (some "Sinker") with bat_side := some "R" }]⟩

/-- The eight base-state options whose predicates pin down the exact
occupancy of all three bases (the 13 options minus the umbrella
`Runners On`, `RISP` and the three `* occupied` options). -/
def exact_base_states : List String :=
  ["Empty", "First Only", "First & Second", "First & Third",
   "Second Only", "Second & Third", "Third Only", "Bases Loaded"]

/-! ## C1: `compute_pitch_metrics` -/

/-- Counting a description predicate over the `fillna("")` projection is
counting it over the rows with the null read as `""`. -/
lemma desc_countP (p : String → Bool) (rows : List Row) :
    List.countP p (rows.map (fun r => r.description.getD ""))
      = List.countP (fun r => p (r.description.getD "")) rows :=
  List.countP_map p (fun r => r.description.getD "") rows

/-- C1: on every pitch-event table, `compute_pitch_metrics` reports
`totalPitches` equal to the row count, `strikePct` equal to the rounded
strike share (null iff the table is empty), and `whiffPct` equal to the
rounded whiff share of swings (null iff the swing count is zero), with
null descriptions matching no description set. -/
theorem compute_pitch_metrics_correct (rows : List Row) :
    (compute_pitch_metrics rows).totalPitches = rows.length
    ∧ (compute_pitch_metrics rows).strikePct = spec_strike_pct rows
    ∧ (compute_pitch_metrics rows).whiffPct = spec_whiff_pct rows := by
  refine ⟨rfl, ?_, ?_⟩
  · simp only [compute_pitch_metrics, spec_strike_pct, spec_strike_count, desc_countP]
    by_cases h : rows.length = 0
    · rw [if_neg (not_not_intro h), if_pos h]
    · rw [if_pos h, if_neg h]
  · simp only [compute_pitch_metrics, spec_whiff_pct, spec_whiff_count, spec_swing_count,
      desc_countP]
    by_cases h : List.countP
        (fun r => swing_descriptions.contains (r.description.getD "")) rows = 0
    · rw [if_neg (not_not_intro h), if_pos h]
    · rw [if_pos h, if_neg h]

/-! ## C2: `compute_pa_level_rates` -/

/-- C2: `compute_pa_level_rates` filters to rows with a non-null terminal
event, reports their count, returns `(null, null, 0)` when that count is
zero, and otherwise the rounded strikeout and walk fractions of those
rows. -/
theorem compute_pa_level_rates_correct (rows : List Row) :
    (compute_pa_level_rates rows).2.2 = (pa_rows rows).length
    ∧ ((pa_rows rows).length = 0 → compute_pa_level_rates rows = (none, none, 0))
    ∧ ((pa_rows rows).length ≠ 0 →
        (compute_pa_level_rates rows).1 =
          some (py_round1 (((pa_rows rows).countP (fun r => r.events == some "strikeout") : ℚ)
            / ((pa_rows rows).length : ℚ) * 100))
        ∧ (compute_pa_level_rates rows).2.1 =
          some (py_round1 (((pa_rows rows).countP (fun r => r.events == some "walk") : ℚ)
            / ((pa_rows rows).length : ℚ) * 100))) := by
  by_cases h : (pa_rows rows).length = 0 <;>
    simp [compute_pa_level_rates, h]

/-- Witness for C2 at a concrete table with two plate appearances. -/
theorem compute_pa_level_rates_correct_witness :
    (pa_rows exPA).length ≠ 0
    ∧ ((compute_pa_level_rates exPA).1 =
        some (py_round1 (((pa_rows exPA).countP (fun r => r.events == some "strikeout") : ℚ)
          / ((pa_rows exPA).length : ℚ) * 100))
      ∧ (compute_pa_level_rates exPA).2.1 =
        some (py_round1 (((pa_rows exPA).countP (fun r => r.events == some "walk") : ℚ)
          / ((pa_rows exPA).length : ℚ) * 100))) :=
  ⟨by decide, (compute_pa_level_rates_correct exPA).2.2 (by decide)⟩

/-! ## C6: `apply_filters` identity law -/

/-- C6: with every dimension set to `"All"`, `apply_filters` returns the
input table unchanged — same rows in the same order (the source also
copies the input first, so the input is never mutated; in this pure
embedding non-mutation is structural). -/
theorem apply_filters_all_identity (df : Frame) :
    apply_filters df "All" "All" OutsOption.all "All" = df := rfl

/-! ## C5 and C10: `get_fg_row` -/

/-- Counterexample for the claim that the name fallback applies for every
display name: with display name `""` and an id that matches no row, the
source returns null (Python `if player_name:` is false on `""`), yet every
row's name contains the empty string case-insensitively, so the claimed
fallback would return the first row. -/
theorem get_fg_row_empty_name_cex :
    get_fg_row (some [⟨1, some "Zack"⟩]) (some 2) (some "") = none
    ∧ (∀ r ∈ ([⟨1, some "Zack"⟩] : List FGRow), r.IDfg ≠ 2)
    ∧ name_match "" ⟨1, some "Zack"⟩ = true := by decide

/-- C5 (amended): `get_fg_row` returns null on an absent or empty table;
returns the first row whose id field equals the secondary id when one
exists; when no row matches the id and the display name is non-empty, it
returns the first case-insensitive substring name match; and when no row
matches the id and the display name is empty or null, it returns null
without attempting the fallback. -/
theorem get_fg_row_lookup_correct (fg : List FGRow) (iv : Int) (nm : String) :
    get_fg_row none (some iv) (some nm) = none
    ∧ get_fg_row (some []) (some iv) (some nm) = none
    ∧ ((∃ r ∈ fg, r.IDfg = iv) →
        get_fg_row (some fg) (some iv) (some nm) = fg.find? (fun r => r.IDfg == iv))
    ∧ ((∀ r ∈ fg, r.IDfg ≠ iv) → nm ≠ "" →
        get_fg_row (some fg) (some iv) (some nm) = fg.find? (name_match nm))
    ∧ ((∀ r ∈ fg, r.IDfg ≠ iv) →
        get_fg_row (some fg) (some iv) (some "") = none
        ∧ get_fg_row (some fg) (some iv) none = none) := by
  refine ⟨rfl, rfl, ?_, ?_, ?_⟩
  · rintro ⟨r, hr, hid⟩
    rcases fg with _ | ⟨a, t⟩
    · cases hr
    · rcases h : (a :: t).find? (fun r => r.IDfg == iv) with _ | r2
      · exact absurd (List.find?_eq_none.mp h r hr) (by simp [hid])
      · simp [get_fg_row, h]
  · intro hall hne
    have hid : fg.find? (fun r => r.IDfg == iv) = none :=
      List.find?_eq_none.mpr (fun x hx => by simpa using hall x hx)
    rcases fg with _ | ⟨a, t⟩
    · rfl
    · simp [get_fg_row, hid, hne]
  · intro hall
    have hid : fg.find? (fun r => r.IDfg == iv) = none :=
      List.find?_eq_none.mpr (fun x hx => by simpa using hall x hx)
    rcases fg with _ | ⟨a, t⟩
    · exact ⟨rfl, rfl⟩
    · exact ⟨by simp [get_fg_row, hid], by simp [get_fg_row, hid]⟩

/-- Witness for the amended C5: an id hit returns the matching row, and an
id miss with a non-empty name returns the first name match. -/
theorem get_fg_row_lookup_correct_witness :
    ((∃ r ∈ exFG, r.IDfg = 9) ∧
      get_fg_row (some exFG) (some 9) (some "Gerrit Cole")
        = exFG.find? (fun r => r.IDfg == 9))
    ∧ ((∀ r ∈ exFG, r.IDfg ≠ 5) ∧ ("cole" ≠ "") ∧
      get_fg_row (some exFG) (some 5) (some "cole") = exFG.find? (name_match "cole")) :=
  ⟨⟨by decide, (get_fg_row_lookup_correct exFG 9 "Gerrit Cole").2.2.1 (by decide)⟩,
   ⟨by decide, by decide,
    (get_fg_row_lookup_correct exFG 5 "cole").2.2.2.1 (by decide) (by decide)⟩⟩

/-- C10: when an id is supplied but matches no row, `get_fg_row` behaves
exactly as if no id had been supplied — the id miss does not suppress the
name fallback. -/
theorem id_miss_falls_back_to_name (fg : List FGRow) (iv : Int) (nm : Option String)
    (h : ∀ r ∈ fg, r.IDfg ≠ iv) :
    get_fg_row (some fg) (some iv) nm = get_fg_row (some fg) none nm := by
  have hid : fg.find? (fun r => r.IDfg == iv) = none :=
    List.find?_eq_none.mpr (fun x hx => by simpa using h x hx)
  rcases fg with _ | ⟨a, t⟩
  · rfl
  · simp [get_fg_row, hid]

/-- Witness for C10: id 5 matches no row of `exFG`, and the lookup equals
the no-id lookup (which finds a row by name). -/
theorem id_miss_falls_back_to_name_witness :
    (∀ r ∈ exFG, r.IDfg ≠ 5)
    ∧ get_fg_row (some exFG) (some 5) (some "wheeler")
        = get_fg_row (some exFG) none (some "wheeler") :=
  ⟨by decide, id_miss_falls_back_to_name exFG 5 (some "wheeler") (by decide)⟩

/-! ## C8: malformed count strings skip the count dimension -/

/-- The count filter is the identity whenever the count string fails to
parse (the bare `except: pass` of source line 208). -/
lemma filter_count_skip (df : Frame) (c : String) (hc : parse_count c = none) :
    filter_count df c = df := by
  unfold filter_count
  cases h : (c != "All") <;> simp [h, hc]

/-- C8: for every count string that is not `"All"` and not of the form
`B-S` with both parts parseable as integers, `apply_filters` skips the
count dimension without raising: the result equals the result with the
count dimension set to `"All"`, the other dimensions applying normally. -/
theorem malformed_count_skipped (df : Frame) (handedness : String) (c : String)
    (o : OutsOption) (b : String) (hc : parse_count c = none) (_hne : c ≠ "All") :
    apply_filters df handedness c o b = apply_filters df handedness "All" o b := by
  unfold apply_filters
  rw [filter_count_skip _ _ hc]
  rfl

/-- Witness for C8 at the malformed count string `"x-y"`. -/
theorem malformed_count_skipped_witness :
    parse_count "x-y" = none ∧ ("x-y" : String) ≠ "All"
    ∧ apply_filters exDF "All" "x-y" OutsOption.all "All"
        = apply_filters exDF "All" "All" OutsOption.all "All" :=
  ⟨by decide, by decide,
   malformed_count_skipped exDF "All" "x-y" OutsOption.all "All" (by decide) (by decide)⟩

/-! ## C9: dynamic handedness-column resolution -/

/-- Scanning the alias list skips an alias that is not a column. -/
lemma find_alias_cons_neg (cols : List String) (a : String) (xs : List String)
    (h : a ∉ cols) :
    List.find? (fun c => cols.contains c) (a :: xs)
      = List.find? (fun c => cols.contains c) xs :=
  List.find?_cons_of_neg _ (by simpa using h)

/-- Scanning the alias list stops at the first alias that is a column. -/
lemma find_alias_cons_pos (cols : List String) (a : String) (xs : List String)
    (h : a ∈ cols) :
    List.find? (fun c => cols.contains c) (a :: xs) = some a :=
  List.find?_cons_of_pos _ (by simpa using h)

/-- The handedness filter is the identity when none of the alias columns
exists in the schema. -/
lemma filter_handedness_noop (df : Frame) (h : String)
    (hnone : ∀ a ∈ handed_aliases, a ∉ df.cols) :
    filter_handedness df h = df := by
  have hfind : handed_aliases.find? (fun c => df.cols.contains c) = none :=
    List.find?_eq_none.mpr (fun x hx => by simpa using hnone x hx)
  unfold filter_handedness
  cases hb : (h != "All")
  · rfl
  · rw [hfind]
    rfl

/-- When the alias scan finds a column, the handedness filter keeps
exactly the rows whose value there equals the wanted side. -/
lemma filter_handedness_found (df : Frame) (h : String) (col : String)
    (hball : (h != "All") = true)
    (hf : handed_aliases.find? (fun c => df.cols.contains c) = some col) :
    (filter_handedness df h).rows = df.rows.filter
      (fun r => hand_value r col == some (if h == "Left" then "L" else "R")) := by
  unfold filter_handedness
  rw [hball, hf]
  rfl

/-- C9: when no handedness column alias exists, `apply_filters` with
handedness `"Left"` or `"Right"` leaves the row set unchanged for that
dimension (no error, identical to `"All"`); and when some alias exists,
the first alias in priority order is used, keeping exactly the rows whose
value in that column equals `"L"` or `"R"` respectively. -/
theorem handedness_alias_resolution (df : Frame) (c : String) (o : OutsOption)
    (b : String) (h : String) (hh : h = "Left" ∨ h = "Right") :
    ((∀ a ∈ handed_aliases, a ∉ df.cols) →
      apply_filters df h c o b = apply_filters df "All" c o b)
    ∧ (∀ i (hi : i < handed_aliases.length),
        handed_aliases.get ⟨i, hi⟩ ∈ df.cols →
        (∀ j (hj : j < i), handed_aliases.get ⟨j, Nat.lt_trans hj hi⟩ ∉ df.cols) →
        (filter_handedness df h).rows = df.rows.filter
          (fun r => hand_value r (handed_aliases.get ⟨i, hi⟩)
            == some (if h == "Left" then "L" else "R"))) := by
  have hball : (h != "All") = true := by rcases hh with rfl | rfl <;> rfl
  constructor
  · intro hnone
    unfold apply_filters
    rw [filter_handedness_noop df h hnone]
    rfl
  · intro i hi hci hbefore
    refine filter_handedness_found df h _ hball ?_
    rcases i with _ | _ | _ | _ | _ | i
    · have hc0 : "stand" ∈ df.cols := hci
      show List.find? (fun c => df.cols.contains c)
        ("stand" :: "bat_side" :: "batting_hand" :: "bat_hand" :: "batter_hand" :: [])
        = some "stand"
      rw [find_alias_cons_pos _ _ _ hc0]
    · have h0 : "stand" ∉ df.cols := hbefore 0 (by omega)
      have hc1 : "bat_side" ∈ df.cols := hci
      show List.find? (fun c => df.cols.contains c)
        ("stand" :: "bat_side" :: "batting_hand" :: "bat_hand" :: "batter_hand" :: [])
        = some "bat_side"
      rw [find_alias_cons_neg _ _ _ h0, find_alias_cons_pos _ _ _ hc1]
    · have h0 : "stand" ∉ df.cols := hbefore 0 (by omega)
      have h1 : "bat_side" ∉ df.cols := hbefore 1 (by omega)
      have hc2 : "batting_hand" ∈ df.cols := hci
      show List.find? (fun c => df.cols.contains c)
        ("stand" :: "bat_side" :: "batting_hand" :: "bat_hand" :: "batter_hand" :: [])
        = some "batting_hand"
      rw [find_alias_cons_neg _ _ _ h0, find_alias_cons_neg _ _ _ h1,
        find_alias_cons_pos _ _ _ hc2]
    · have h0 : "stand" ∉ df.cols := hbefore 0 (by omega)
      have h1 : "bat_side" ∉ df.cols := hbefore 1 (by omega)
      have h2 : "batting_hand" ∉ df.cols := hbefore 2 (by omega)
      have hc3 : "bat_hand" ∈ df.cols := hci
      show List.find? (fun c => df.cols.contains c)
        ("stand" :: "bat_side" :: "batting_hand" :: "bat_hand" :: "batter_hand" :: [])
        = some "bat_hand"
      rw [find_alias_cons_neg _ _ _ h0, find_alias_cons_neg _ _ _ h1,
        find_alias_cons_neg _ _ _ h2, find_alias_cons_pos _ _ _ hc3]
    · have h0 : "stand" ∉ df.cols := hbefore 0 (by omega)
      have h1 : "bat_side" ∉ df.cols := hbefore 1 (by omega)
      have h2 : "batting_hand" ∉ df.cols := hbefore 2 (by omega)
      have h3 : "bat_hand" ∉ df.cols := hbefore 3 (by omega)
      have hc4 : "batter_hand" ∈ df.cols := hci
      show List.find? (fun c => df.cols.contains c)
        ("stand" :: "bat_side" :: "batting_hand" :: "bat_hand" :: "batter_hand" :: [])
        = some "batter_hand"
      rw [find_alias_cons_neg _ _ _ h0, find_alias_cons_neg _ _ _ h1,
        find_alias_cons_neg _ _ _ h2, find_alias_cons_neg _ _ _ h3,
        find_alias_cons_pos _ _ _ hc4]
    · exfalso
      simp [handed_aliases] at hi
      omega

/-- Witness for C9: on a frame with no alias columns the Left filter is a
no-op, and on `exHandDF` the filter resolves to `bat_side` (alias index 1,
`stand` being absent) and keeps the `"L"` rows. -/
theorem handedness_alias_resolution_witness :
    ((∀ a ∈ handed_aliases, a ∉ exDF.cols) ∧
      apply_filters exDF "Left" "All" OutsOption.all "All"
        = apply_filters exDF "All" "All" OutsOption.all "All")
    ∧ (("bat_side" ∈ exHandDF.cols) ∧
      (filter_handedness exHandDF "Left").rows = exHandDF.rows.filter
        (fun r => hand_value r "bat_side"
          == some (if ("Left" : String) == "Left" then "L" else "R"))) :=
  ⟨⟨by decide,
    (handedness_alias_resolution exDF "All" OutsOption.all "All" "Left" (Or.inl rfl)).1
      (by decide)⟩,
   ⟨by decide,
    (handedness_alias_resolution exHandDF "All" OutsOption.all "All" "Left" (Or.inl rfl)).2
      1 (by decide)
      (by decide)
      (fun j hj => by
        have hj0 : j = 0 := by omega
        subst hj0
        show "stand" ∉ exHandDF.cols
        decide)⟩⟩

/-! ## C7: the eight exact base-state predicates are mutually exclusive -/

/-- C7: a row of the table is kept by at most one of the eight exact
base-state options of `apply_filters` (with the other dimensions set to
`"All"`). -/
theorem base_state_exact_exclusive (df : Frame) (r : Row) (hr : r ∈ df.rows) :
    exact_base_states.countP
      (fun b => decide (r ∈ (apply_filters df "All" "All" OutsOption.all b).rows)) ≤ 1 := by
  have hred : (fun b => decide (r ∈ (apply_filters df "All" "All" OutsOption.all b).rows))
      = fun b => decide (r ∈ (filter_base_state df b).rows) := rfl
  rw [hred]
  have m : ∀ p : Row → Bool, (decide (r ∈ df.rows.filter p)) = p r := by
    intro p
    simp [List.mem_filter, hr]
  have e1 : (filter_base_state df "Empty").rows
      = df.rows.filter (fun r => r.on_1b.isNone && r.on_2b.isNone && r.on_3b.isNone) := rfl
  have e2 : (filter_base_state df "First Only").rows
      = df.rows.filter (fun r => r.on_1b.isSome && r.on_2b.isNone && r.on_3b.isNone) := rfl
  have e3 : (filter_base_state df "First & Second").rows
      = df.rows.filter (fun r => r.on_1b.isSome && r.on_2b.isSome && r.on_3b.isNone) := rfl
  have e4 : (filter_base_state df "First & Third").rows
      = df.rows.filter (fun r => r.on_1b.isSome && r.on_2b.isNone && r.on_3b.isSome) := rfl
  have e5 : (filter_base_state df "Second Only").rows
      = df.rows.filter (fun r => r.on_1b.isNone && r.on_2b.isSome && r.on_3b.isNone) := rfl
  have e6 : (filter_base_state df "Second & Third").rows
      = df.rows.filter (fun r => r.on_1b.isNone && r.on_2b.isSome && r.on_3b.isSome) := rfl
  have e7 : (filter_base_state df "Third Only").rows
      = df.rows.filter (fun r => r.on_1b.isNone && r.on_2b.isNone && r.on_3b.isSome) := rfl
  have e8 : (filter_base_state df "Bases Loaded").rows
      = df.rows.filter (fun r => r.on_1b.isSome && r.on_2b.isSome && r.on_3b.isSome) := rfl
  simp only [exact_base_states, List.countP_cons, List.countP_nil,
    e1, e2, e3, e4, e5, e6, e7, e8, m]
  rcases h1 : r.on_1b <;> rcases h2 : r.on_2b <;> rcases h3 : r.on_3b <;>
    simp [h1, h2, h3]

/-- Witness for C7 at a concrete frame and row (bases empty: only the
`"Empty"` option keeps the row). -/
theorem base_state_exact_exclusive_witness :
    (mkRow none none (some "Slider") ∈ exDF.rows)
    ∧ exact_base_states.countP
        (fun b => decide (mkRow none none (some "Slider")
          ∈ (apply_filters exDF "All" "All" OutsOption.all b).rows)) ≤ 1 :=
  ⟨by decide, base_state_exact_exclusive exDF _ (by decide)⟩

/-! ## Sorting infrastructure for the pitch-mix claims -/

/-- Membership in an insertion. -/
lemma mem_insert_by (cmp : α → α → Bool) (a x : α) (l : List α) :
    x ∈ insert_by cmp a l ↔ x = a ∨ x ∈ l := by
  induction l with
  | nil => simp [insert_by]
  | cons b bs ih =>
    by_cases h : cmp a b
    · simp [insert_by, h]
    · simp [insert_by, h, ih]
      tauto

/-- Insertion permutes the element onto the list. -/
lemma insert_by_perm (cmp : α → α → Bool) (a : α) (l : List α) :
    (insert_by cmp a l).Perm (a :: l) := by
  induction l with
  | nil => exact List.Perm.refl _
  | cons b bs ih =>
    by_cases h : cmp a b
    · have e : insert_by cmp a (b :: bs) = a :: b :: bs := by simp [insert_by, h]
      rw [e]
    · have e : insert_by cmp a (b :: bs) = b :: insert_by cmp a bs := by simp [insert_by, h]
      rw [e]
      exact (ih.cons b).trans (List.Perm.swap a b bs)

/-- The sort is a permutation of its input. -/
lemma sort_by_perm (cmp : α → α → Bool) (l : List α) : (sort_by cmp l).Perm l := by
  induction l with
  | nil => exact List.Perm.refl _
  | cons a t ih => exact (insert_by_perm cmp a (sort_by cmp t)).trans (ih.cons a)

/-- Inserting into a `cmp`-sorted list keeps it sorted, for a transitive
and total comparator. -/
lemma pairwise_insert_by {cmp : α → α → Bool}
    (htrans : ∀ a b c, cmp a b = true → cmp b c = true → cmp a c = true)
    (htotal : ∀ a b, cmp a b = true ∨ cmp b a = true)
    (a : α) (l : List α) (hl : List.Pairwise (fun x y => cmp x y = true) l) :
    List.Pairwise (fun x y => cmp x y = true) (insert_by cmp a l) := by
  induction l with
  | nil => simp [insert_by]
  | cons b bs ih =>
    rcases List.pairwise_cons.mp hl with ⟨hb, hbs⟩
    by_cases h : cmp a b = true
    · have e : insert_by cmp a (b :: bs) = a :: b :: bs := by simp [insert_by, h]
      rw [e]
      refine List.pairwise_cons.mpr ⟨?_, hl⟩
      intro c hc
      rcases List.mem_cons.mp hc with rfl | hc
      · exact h
      · exact htrans a b c h (hb c hc)
    · have e : insert_by cmp a (b :: bs) = b :: insert_by cmp a bs := by simp [insert_by, h]
      rw [e]
      refine List.pairwise_cons.mpr ⟨?_, ih hbs⟩
      intro c hc
      rcases (mem_insert_by cmp a c bs).mp hc with rfl | hc
      · exact (htotal c b).resolve_left h
      · exact hb c hc

/-- The sort is sorted, for a transitive and total comparator. -/
lemma pairwise_sort_by {cmp : α → α → Bool}
    (htrans : ∀ a b c, cmp a b = true → cmp b c = true → cmp a c = true)
    (htotal : ∀ a b, cmp a b = true ∨ cmp b a = true)
    (l : List α) :
    List.Pairwise (fun x y => cmp x y = true) (sort_by cmp l) := by
  induction l with
  | nil => simp [sort_by]
  | cons a t ih => exact pairwise_insert_by htrans htotal a _ ih

/-! ## The Python string order `chars_lt` -/

/-- `chars_lt` is irreflexive. -/
lemma chars_lt_irrefl : ∀ l : List Char, chars_lt l l = false
  | [] => rfl
  | a :: as => by simp [chars_lt, chars_lt_irrefl as]

/-- `chars_lt` is asymmetric. -/
lemma chars_lt_asymm : ∀ as bs : List Char, chars_lt as bs = true → chars_lt bs as = false := by
  intro as
  induction as with
  | nil =>
    intro bs h
    cases bs with
    | nil => simp [chars_lt] at h
    | cons b t => simp [chars_lt]
  | cons a as ih =>
    intro bs h
    cases bs with
    | nil => simp [chars_lt] at h
    | cons b t =>
      by_cases h1 : a.toNat < b.toNat
      · have h2 : ¬ b.toNat < a.toNat := by omega
        simp [chars_lt, h1, h2]
      · by_cases h2 : b.toNat < a.toNat
        · simp [chars_lt, h1, h2] at h
        · have h3 := h
          simp [chars_lt, h1, h2] at h3
          simp [chars_lt, h1, h2, ih t h3]

/-- `chars_lt` is transitive. -/
lemma chars_lt_trans : ∀ as bs cs : List Char,
    chars_lt as bs = true → chars_lt bs cs = true → chars_lt as cs = true := by
  intro as
  induction as with
  | nil =>
    intro bs cs h1 h2
    cases cs with
    | nil => cases bs <;> simp [chars_lt] at h2
    | cons c ct => simp [chars_lt]
  | cons a as ih =>
    intro bs cs h1 h2
    cases bs with
    | nil => simp [chars_lt] at h1
    | cons b bt =>
      cases cs with
      | nil => simp [chars_lt] at h2
      | cons c ct =>
        by_cases hab : a.toNat < b.toNat
        · by_cases hbc : b.toNat < c.toNat
          · have hac : a.toNat < c.toNat := by omega
            simp [chars_lt, hac]
          · by_cases hcb : c.toNat < b.toNat
            · simp [chars_lt, hbc, hcb] at h2
            · have hac : a.toNat < c.toNat := by omega
              simp [chars_lt, hac]
        · by_cases hba : b.toNat < a.toNat
          · simp [chars_lt, hab, hba] at h1
          · have h1' := h1
            simp [chars_lt, hab, hba] at h1'
            by_cases hbc : b.toNat < c.toNat
            · have hac : a.toNat < c.toNat := by omega
              simp [chars_lt, hac]
            · by_cases hcb : c.toNat < b.toNat
              · simp [chars_lt, hbc, hcb] at h2
              · have h2' := h2
                simp [chars_lt, hbc, hcb] at h2'
                have hac1 : ¬ a.toNat < c.toNat := by omega
                have hac2 : ¬ c.toNat < a.toNat := by omega
                simp [chars_lt, hac1, hac2, ih bt ct h1' h2']

/-- `chars_lt` is trichotomous. -/
lemma chars_lt_trichotomy : ∀ as bs : List Char,
    chars_lt as bs = true ∨ chars_lt bs as = true ∨ as = bs := by
  intro as
  induction as with
  | nil =>
    intro bs
    cases bs with
    | nil => exact Or.inr (Or.inr rfl)
    | cons b t => exact Or.inl (by simp [chars_lt])
  | cons a as ih =>
    intro bs
    cases bs with
    | nil => exact Or.inr (Or.inl (by simp [chars_lt]))
    | cons b t =>
      rcases Nat.lt_trichotomy a.toNat b.toNat with h | h | h
      · exact Or.inl (by simp [chars_lt, h])
      · have hab : a = b := Char.ext (UInt32.toNat.inj h)
        subst hab
        rcases ih t with h' | h' | h'
        · exact Or.inl (by simp [chars_lt, h'])
        · exact Or.inr (Or.inl (by simp [chars_lt, h']))
        · exact Or.inr (Or.inr (by rw [h']))
      · exact Or.inr (Or.inl (by simp [chars_lt, h]))

/-- `str_le` is transitive. -/
lemma str_le_trans : ∀ a b c : String,
    str_le a b = true → str_le b c = true → str_le a c = true := by
  intro a b c h1 h2
  have h1' : chars_lt b.data a.data = false := by simpa [str_le] using h1
  have h2' : chars_lt c.data b.data = false := by simpa [str_le] using h2
  cases hx : chars_lt c.data a.data with
  | false => simp [str_le, hx]
  | true =>
    exfalso
    rcases chars_lt_trichotomy b.data c.data with h | h | h
    · have := chars_lt_trans b.data c.data a.data h hx
      rw [this] at h1'
      cases h1'
    · rw [h] at h2'
      cases h2'
    · rw [h] at h1'
      rw [hx] at h1'
      cases h1'

/-- `str_le` is total. -/
lemma str_le_total : ∀ a b : String, str_le a b = true ∨ str_le b a = true := by
  intro a b
  cases hx : chars_lt b.data a.data with
  | false => exact Or.inl (by simp [str_le, hx])
  | true => exact Or.inr (by simp [str_le, chars_lt_asymm _ _ hx])

/-- The sorted group keys are strictly increasing in Python string
order. -/
lemma keys_pairwise_lt (labs : List String) :
    List.Pairwise (fun a b : String => chars_lt a.data b.data = true)
      (sort_by str_le labs.dedup) := by
  have hle : List.Pairwise (fun a b : String => str_le a b = true)
      (sort_by str_le labs.dedup) :=
    pairwise_sort_by str_le_trans str_le_total _
  have hnd : (sort_by str_le labs.dedup).Nodup :=
    ((sort_by_perm str_le labs.dedup).symm).nodup (List.nodup_dedup labs)
  refine (hle.and hnd).imp ?_
  rintro a b ⟨h1, h2⟩
  rcases chars_lt_trichotomy a.data b.data with h | h | h
  · exact h
  · exfalso
    simp [str_le, h] at h1
  · exfalso
    rcases a with ⟨ad⟩
    rcases b with ⟨bd⟩
    cases h
    exact h2 rfl

/-- The grouped (label, count) rows are strictly increasing in label. -/
lemma grouped_pairwise_lab (labs : List String) :
    List.Pairwise (fun x y : String × Nat => chars_lt x.1.data y.1.data = true)
      ((sort_by str_le labs.dedup).map (fun k => (k, labs.count k))) := by
  rw [List.pairwise_map]
  exact keys_pairwise_lt labs

/-- Inserting a row whose label is below every label present keeps the
mix table ordered by count descending with label-ascending ties. -/
lemma pairwise_mix_order_insert (a : String × Nat) (m : List (String × Nat))
    (hm : List.Pairwise mix_order m)
    (hlab : ∀ b ∈ m, chars_lt a.1.data b.1.data = true) :
    List.Pairwise mix_order (insert_by count_ge a m) := by
  induction m with
  | nil => simp [insert_by]
  | cons b bs ih =>
    rcases List.pairwise_cons.mp hm with ⟨hb, hbs⟩
    by_cases hab : count_ge a b = true
    · have hba : b.2 ≤ a.2 := by simpa [count_ge] using hab
      have e : insert_by count_ge a (b :: bs) = a :: b :: bs := by simp [insert_by, hab]
      rw [e]
      refine List.pairwise_cons.mpr ⟨?_, hm⟩
      intro c hc
      rcases List.mem_cons.mp hc with rfl | hc
      · rcases lt_or_eq_of_le hba with hlt | heq
        · exact Or.inl hlt
        · exact Or.inr ⟨heq.symm, hlab c (List.mem_cons_self c bs)⟩
      · have hbc := hb c hc
        have hc2 : c.2 ≤ a.2 := by
          rcases hbc with hlt | ⟨heq, _⟩
          · exact le_trans (le_of_lt hlt) hba
          · exact le_trans (le_of_eq heq.symm) hba
        rcases lt_or_eq_of_le hc2 with hlt | heq
        · exact Or.inl hlt
        · exact Or.inr ⟨heq.symm, hlab c (List.mem_cons_of_mem b hc)⟩
    · have hab' : a.2 < b.2 := by
        have h' : ¬ b.2 ≤ a.2 := by simpa [count_ge] using hab
        omega
      have e : insert_by count_ge a (b :: bs) = b :: insert_by count_ge a bs := by
        simp [insert_by, hab]
      rw [e]
      refine List.pairwise_cons.mpr
        ⟨?_, ih hbs (fun c hc => hlab c (List.mem_cons_of_mem b hc))⟩
      intro c hc
      rcases (mem_insert_by count_ge a c bs).mp hc with rfl | hc
      · exact Or.inl hab'
      · exact hb c hc

/-- Sorting a label-ascending group table by count descending yields a
table ordered by `mix_order` (stability: ties stay in label order). -/
lemma pairwise_mix_order_sort (l : List (String × Nat))
    (hl : List.Pairwise (fun x y : String × Nat => chars_lt x.1.data y.1.data = true) l) :
    List.Pairwise mix_order (sort_by count_ge l) := by
  induction l with
  | nil => simp [sort_by]
  | cons a t ih =>
    rcases List.pairwise_cons.mp hl with ⟨ha, ht⟩
    show List.Pairwise mix_order (insert_by count_ge a (sort_by count_ge t))
    refine pairwise_mix_order_insert a _ (ih ht) ?_
    intro b hb
    exact ha b ((sort_by_perm count_ge t).subset hb)

/-- The mix table is a permutation of the group table. -/
lemma computeMix_perm_groups (rows : List Row) :
    (computeMix rows).Perm (spec_groups rows) := by
  have h1 : (computeMix rows).Perm
      ((sort_by str_le (pitch_labels rows).dedup).map
        (fun k => (k, (pitch_labels rows).count k))) :=
    sort_by_perm _ _
  have h2 := (sort_by_perm str_le (pitch_labels rows).dedup).map
      (fun k => (k, (pitch_labels rows).count k))
  exact h1.trans h2

/-! ## C3: the pitch-mix ordering -/

/-- Counterexample for the claimed tie-break: two labels with the same
count whose first-seen order (`Slider` then `Changeup`) differs from
ascending label order.  `groupby` sorts keys ascending, so the code
yields `Changeup` first, while the claim demands first-seen order. -/
theorem mix_first_seen_tiebreak_cex :
    computeMix exMixRows = [("Changeup", 1), ("Slider", 1)]
    ∧ spec_mix_claimed exMixRows = [("Slider", 1), ("Changeup", 1)]
    ∧ computeMix exMixRows ≠ spec_mix_claimed exMixRows := by decide

/-- C3 (amended): the pitch-mix aggregation drops null labels, groups by
label (the result is a permutation of the one-pair-per-distinct-label
table), and is sorted descending by count with ties between equal counts
broken by ascending label order in Python string order — not by
first-seen order, because `groupby` sorts the group keys. -/
theorem computeMix_sorted_desc_ties_label (rows : List Row) :
    (computeMix rows).Perm (spec_groups rows)
    ∧ List.Pairwise mix_order (computeMix rows) := by
  refine ⟨computeMix_perm_groups rows, ?_⟩
  exact pairwise_mix_order_sort _ (grouped_pairwise_lab (pitch_labels rows))

/-! ## C4: usage percentages sum to 100 -/

/-- Multiplying each count by a constant multiplies the sum. -/
lemma sum_map_mul_const (l : List (String × Nat)) (c : ℚ) :
    (l.map (fun p => (p.2 : ℚ) * c)).sum = (((l.map (fun p => p.2)).sum : Nat) : ℚ) * c := by
  induction l with
  | nil => simp
  | cons a t ih =>
    simp [ih, add_mul]

/-- The counts in the mix table sum to the number of non-null labels. -/
lemma mix_counts_sum (rows : List Row) :
    ((computeMix rows).map (fun p => p.2)).sum = (pitch_labels rows).length := by
  have h := ((computeMix_perm_groups rows).map (fun p => p.2)).sum_eq
  rw [h]
  simp only [spec_groups, List.map_map]
  exact List.sum_map_count_dedup_eq_length (pitch_labels rows)

/-- A usage column computed as `count / total * 100` sums to 100 when the
total is nonzero. -/
lemma usage_sum (mix : List (String × Nat))
    (hne : (((mix.map (fun p => p.2)).sum : Nat) : ℚ) ≠ 0) :
    ((mix.map (fun p =>
        (p.1, p.2, (p.2 : ℚ) / (((mix.map (fun p => p.2)).sum : Nat) : ℚ) * 100))).map
      (fun t => t.2.2)).sum = 100 := by
  rw [List.map_map]
  have e : ((fun t : String × Nat × ℚ => t.2.2) ∘
      (fun p : String × Nat =>
        (p.1, p.2, (p.2 : ℚ) / (((mix.map (fun p => p.2)).sum : Nat) : ℚ) * 100)))
      = fun p : String × Nat =>
        (p.2 : ℚ) * (100 / (((mix.map (fun p => p.2)).sum : Nat) : ℚ)) := by
    funext p
    simp [Function.comp]
    ring
  rw [e, sum_map_mul_const]
  rw [mul_comm, div_mul_cancel₀ _ hne]

/-- C4: whenever the table is non-empty after dropping null labels, the
usage percentages of the pitch-mix aggregation sum to exactly 100 (the
embedding computes in `ℚ`, so "up to rounding" is exact); on an empty
table, or one whose labels are all null, the aggregation yields the empty
sequence rather than an error. -/
theorem mix_usage_sums_to_100 (rows : List Row) :
    (pitch_labels rows ≠ [] →
      ((computeMixUsage rows).map (fun t => t.2.2)).sum = 100)
    ∧ computeMixUsage [] = []
    ∧ ((∀ r ∈ rows, r.pitch_label = none) → computeMixUsage rows = []) := by
  refine ⟨?_, rfl, ?_⟩
  · intro hne
    have hlen0 : (pitch_labels rows).length ≠ 0 :=
      fun h0 => hne (List.length_eq_zero.mp h0)
    have hT : ((((computeMix rows).map (fun p => p.2)).sum : Nat) : ℚ) ≠ 0 := by
      rw [mix_counts_sum rows]
      exact_mod_cast hlen0
    simp only [computeMixUsage]
    exact usage_sum (computeMix rows) hT
  · intro hall
    have hlab : pitch_labels rows = [] := List.filterMap_eq_nil_iff.mpr hall
    simp [computeMixUsage, computeMix, hlab, sort_by]

/-- Witness for C4: on `exMixRows` the usage shares (50 and 50) sum to
100, and a table whose only label is null aggregates to the empty
sequence. -/
theorem mix_usage_sums_to_100_witness :
    (pitch_labels exMixRows ≠ [])
    ∧ ((computeMixUsage exMixRows).map (fun t => t.2.2)).sum = 100
    ∧ computeMixUsage [mkRow none none none] = [] :=
  ⟨by decide, (mix_usage_sums_to_100 exMixRows).1 (by decide),
   (mix_usage_sums_to_100 [mkRow none none none]).2.2 (by decide)⟩
